import Mathlib

/-!
# MeltScan — formal verification of the parser / probe / engine layer

Shallow embedding of the MeltScan port scanner (`meltscan_cli.py` and
`meltscan_gui.py`; the two files carry copies of the parsing and probing
logic that differ only in formatting — the CLI's `tcp_connect_scan` uses
a conditional expression where the GUI uses `if`/`else` — so each
function below embeds both).

External library behaviour (Python's `str`/`int`/`re` operations, the
`ipaddress` module, CPython `socket.connect_ex` semantics) is transcribed
from CPython's documented implementation where the scanner calls into it;
each such definition carries a comment naming the CPython behaviour it
transcribes.  Network / OS nondeterminism (what a connect attempt or a
scapy `sr1` exchange does) is modelled as an explicit outcome value passed
to the probe function, covering every outcome the Python runtime can
deliver to the scanner's code.
-/

set_option maxRecDepth 40000

namespace MeltScan

/-! ## Python string primitives -/

/-- ASCII whitespace stripped by Python's `str.strip()` (the scanner's
inputs are ASCII command-line/GUI text; the unicode extras of `str.strip`
are irrelevant here). -/
def isPySpace (c : Char) : Bool :=
  c = ' ' || c = '\t' || c = '\n' || c = '\r' || c = Char.ofNat 11 || c = Char.ofNat 12

/-- Python `str.strip()`. -/
def pyStrip (l : List Char) : List Char :=
  (l.dropWhile isPySpace).reverse.dropWhile isPySpace |>.reverse

/-- Python `str.split(sep)` for a single-character separator: every
occurrence separates, empty pieces are kept (`"a--b".split("-") ==
["a","","b"]`, `"".split("-") == [""]`). -/
def splitChar (sep : Char) : List Char → List (List Char)
  | [] => [[]]
  | c :: rest =>
    match splitChar sep rest with
    | [] => [[]]
    | t :: ts => if c = sep then [] :: t :: ts else (c :: t) :: ts

/-- Worker for `splitGroups`: `cur` is the (reversed) group being read. -/
def splitGroupsAux (isDelim : Char → Bool) : List Char → List Char → List (List Char)
  | [], cur => if cur = [] then [] else [cur.reverse]
  | c :: rest, cur =>
    if isDelim c then
      if cur = [] then splitGroupsAux isDelim rest []
      else cur.reverse :: splitGroupsAux isDelim rest []
    else splitGroupsAux isDelim rest (c :: cur)

/-- `re.split("[D]+", s)` restricted to the maximal non-delimiter groups:
the scanner immediately drops empty tokens (`if not p: continue`), and the
only empty strings `re.split` on a `+`-quantified class can produce are at
the two boundaries, so keeping just the non-empty groups is equivalent. -/
def splitGroups (isDelim : Char → Bool) (l : List Char) : List (List Char) :=
  splitGroupsAux isDelim l []

/-- Delimiters of `re.split(r"[\s,;]+", ...)` used by `parse_ports`. -/
def isPortDelim (c : Char) : Bool :=
  isPySpace c || c = ',' || c = ';'

/-- Delimiters of `re.split(r"[\n,;]+", ...)` used by `parse_targets`. -/
def isTargetDelim (c : Char) : Bool :=
  c = '\n' || c = ',' || c = ';'

/-! ## Python `int(str)` -/

def digitVal (c : Char) : Nat := c.toNat - '0'.toNat

def digitsVal (l : List Char) : Nat :=
  l.foldl (fun acc c => acc * 10 + digitVal c) 0

mutual
/-- Grammar of the digit part of a Python decimal `int` literal:
nonempty digits, optionally separated by single underscores. -/
def pyDigits : List Char → Bool
  | [] => false
  | c :: rest => c.isDigit && pyDigitsRest rest

def pyDigitsRest : List Char → Bool
  | [] => true
  | '_' :: rest =>
    match rest with
    | [] => false
    | c :: rest' => c.isDigit && pyDigitsRest rest'
  | c :: rest => c.isDigit && pyDigitsRest rest
end

/-- Python `int(s)` for decimal strings: optional surrounding whitespace,
optional sign, digits (underscore separators allowed).  Returns `none`
where CPython raises `ValueError`. -/
def pyIntParse (s : List Char) : Option Int :=
  let s := pyStrip s
  match s with
  | '+' :: rest =>
    if pyDigits rest then some (Int.ofNat (digitsVal (rest.filter (· ≠ '_')))) else none
  | '-' :: rest =>
    if pyDigits rest then some (-(Int.ofNat (digitsVal (rest.filter (· ≠ '_'))))) else none
  | _ =>
    if pyDigits s then some (Int.ofNat (digitsVal (s.filter (· ≠ '_')))) else none

/-! ## Port resolver (`parse_ports`, identical in both source files) -/

/-- `range(a, b + 1)` over integers, as a list. -/
def intRange (a b : Int) : List Int :=
  (List.range (b + 1 - a).toNat).map (fun k => a + k)

/-- Ports contributed by one (already split, non-empty-filtered) token of
`parse_ports`: the `"-"` branch clamps `a` below at 1 and `b` above at
65535, then adds `range(min(a,b), max(a,b)+1)`; the single-value branch
keeps `val` only when `1 <= val <= 65535`; any parse failure skips the
whole token. -/
def tokenPorts (p : List Char) : List Int :=
  if p = [] then []
  else if '-' ∈ p then
    match splitChar '-' p with
    | [sa, sb] =>
      match pyIntParse sa, pyIntParse sb with
      | some a, some b =>
        let a' := if a < 1 then 1 else a
        let b' := if b > 65535 then 65535 else b
        intRange (min a' b') (max a' b')
      | _, _ => []
    | _ => []
  else
    match pyIntParse p with
    | some v => if 1 ≤ v ∧ v ≤ 65535 then [v] else []
    | none => []

/-- Stable insertion into a `≤`-sorted list. -/
def insertSorted (x : Int) : List Int → List Int
  | [] => [x]
  | y :: ys => if x ≤ y then x :: y :: ys else y :: insertSorted x ys

/-- Python `sorted` on a list of ints (insertion sort — same
specification: an ascending reordering). -/
def sortInts (l : List Int) : List Int := l.foldr insertSorted []

/-- `parse_ports`: split on runs of whitespace/comma/semicolon, accumulate
each token's ports into a set, return the set sorted ascending
(`sorted(list(ports))`).  The Python `set` is modelled by deduplicating
the accumulated contributions before sorting. -/
def parse_ports (text : String) : List Int :=
  if text = "" then []
  else
    sortInts ((splitGroups isPortDelim (pyStrip text.toList)).flatMap tokenPorts).dedup

/-! ## CPython `ipaddress` — IPv4 -/

/-- `IPv4Address._parse_octet`: 1–3 ASCII digits, no leading zero (unless
the octet is exactly "0"), value ≤ 255. -/
def octetParse (p : List Char) : Option Nat :=
  if p = [] then none
  else if !(p.all Char.isDigit) then none
  else if p.length > 3 then none
  else if p.length > 1 && p.headD ' ' = '0' then none
  else
    let v := digitsVal p
    if v > 255 then none else some v

/-- `IPv4Address._ip_int_from_string`: exactly four dot-separated octets. -/
def ipv4Parse (l : List Char) : Option Nat :=
  let parts := splitChar '.' l
  if parts.length ≠ 4 then none
  else
    match parts.mapM octetParse with
    | some [a, b, c, d] => some (((a * 256 + b) * 256 + c) * 256 + d)
    | _ => none

/-- Digit characters for positional rendering (CPython uses `0`–`9` for
decimal and lowercase `0`–`f` for `'%x'`; the `'*'` fallback mirrors
`Nat.digitChar` and is unreachable for bases ≤ 16). -/
def digitCharOf : Nat → Char
  | 0 => '0' | 1 => '1' | 2 => '2' | 3 => '3' | 4 => '4' | 5 => '5'
  | 6 => '6' | 7 => '7' | 8 => '8' | 9 => '9' | 10 => 'a' | 11 => 'b'
  | 12 => 'c' | 13 => 'd' | 14 => 'e' | 15 => 'f' | _ => '*'

/-- Positional base-`base` rendering, most significant digit first
(fuel-structured; `fuel = n` always suffices since each step divides by
`base ≥ 2`). -/
def natToBaseAux (base : Nat) : Nat → Nat → List Char → List Char
  | 0, n, acc => digitCharOf (n % base) :: acc
  | fuel + 1, n, acc =>
    if n < base then digitCharOf n :: acc
    else natToBaseAux base fuel (n / base) (digitCharOf (n % base) :: acc)

/-- CPython `str(int)` (`base = 10`) and `'%x' % int` (`base = 16`) for
nonnegative values. -/
def natToBase (base n : Nat) : List Char := natToBaseAux base n n []

/-- `str(IPv4Address)`: dotted quad. -/
def ipv4Render (v : Nat) : List Char :=
  natToBase 10 (v / 16777216 % 256) ++ '.' :: natToBase 10 (v / 65536 % 256) ++
    '.' :: natToBase 10 (v / 256 % 256) ++ '.' :: natToBase 10 (v % 256)

/-! ## CPython `ipaddress` — IPv6 -/

def isHexDigitChar (c : Char) : Bool :=
  c.isDigit || ('a' ≤ c && c ≤ 'f') || ('A' ≤ c && c ≤ 'F')

def hexDigitVal (c : Char) : Nat :=
  if c.isDigit then c.toNat - '0'.toNat
  else if 'a' ≤ c && c ≤ 'f' then c.toNat - 'a'.toNat + 10
  else c.toNat - 'A'.toNat + 10

/-- `IPv6Address._parse_hextet`: nonempty, all hex digits, at most 4. -/
def hextetParse (p : List Char) : Option Nat :=
  if !(p.all isHexDigitChar) then none
  else if p.length > 4 then none
  else if p = [] then none
  else some (p.foldl (fun acc c => acc * 16 + hexDigitVal c) 0)

/-- Lowercase hex rendering of a `Nat` without padding (CPython `'%x'`). -/
def hexRender (n : Nat) : List Char :=
  natToBase 16 n

/-- `IPv6Address._ip_int_from_string` step 2: after the optional trailing
IPv4 substitution, parse the `':'`-separated parts.  Transcribes CPython's
skip-index ('::') bookkeeping: at most one empty interior part; an empty
first (resp. last) part is allowed only directly next to the skip; the
parts before and after the skip must fill at most 7 hextets. -/
def ipv6PartsParse (parts : List (List Char)) : Option Nat :=
  if parts.length > 9 then none
  else
    let n := parts.length
    let skips := ((List.range (n - 2)).map (· + 1)).filter
      (fun i => parts.getD i [' '] = [])
    match skips with
    | [] =>
      -- no '::': exactly 8 parts, all of which must parse (an empty
      -- first/last part fails `hextetParse` just as CPython raises)
      if n ≠ 8 then none
      else
        match parts.mapM hextetParse with
        | some vals => some (vals.foldl (fun acc v => acc * 65536 + v) 0)
        | none => none
    | [i] =>
      let hi? : Option Nat :=
        if parts.headD [' '] = [] then (if i - 1 = 0 then some 0 else none)
        else some i
      let lo? : Option Nat :=
        if parts.getLastD [' '] = [] then (if n - i - 2 = 0 then some 0 else none)
        else some (n - i - 1)
      match hi?, lo? with
      | some hi, some lo =>
        if hi + lo ≥ 8 then none
        else
          match (parts.take hi).mapM hextetParse, (parts.drop (n - lo)).mapM hextetParse with
          | some hivals, some lovals =>
            let hiInt := hivals.foldl (fun acc v => acc * 65536 + v) 0
            let skipped := 8 - (hi + lo)
            some ((hiInt * 65536 ^ skipped) * 65536 ^ lo +
              lovals.foldl (fun acc v => acc * 65536 + v) 0)
          | _, _ => none
      | _, _ => none
    | _ => none

/-- `IPv6Address._ip_int_from_string` (scope id excluded): split on `':'`,
require at least 3 parts, substitute a trailing dotted-quad part by its
two hextets, then `ipv6PartsParse`. -/
def ipv6CoreParse (l : List Char) : Option Nat :=
  let parts := splitChar ':' l
  if parts.length < 3 then none
  else
    match parts.getLast? with
    | none => none
    | some last =>
      if '.' ∈ last then
        match ipv4Parse last with
        | some v4 =>
          ipv6PartsParse (parts.dropLast ++ [hexRender (v4 / 65536), hexRender (v4 % 65536)])
        | none => none
      else ipv6PartsParse parts

/-- The scan loop of CPython `_compress_hextets`: state is
(index, current-run start, current-run length, best start, best length),
updated per hextet — a `"0"` hextet extends (or opens) the current run and
takes over the best on strict improvement (so the leftmost longest run
wins). -/
def compressScan (hextets : List (List Char)) : Nat × Nat × Nat × Nat × Nat :=
  hextets.foldl
    (fun st h =>
      if h = ['0'] then
        if st.2.2.1 + 1 > st.2.2.2.2 then
          (st.1 + 1, (if st.2.2.1 = 0 then st.1 else st.2.1), st.2.2.1 + 1,
            (if st.2.2.1 = 0 then st.1 else st.2.1), st.2.2.1 + 1)
        else
          (st.1 + 1, (if st.2.2.1 = 0 then st.1 else st.2.1), st.2.2.1 + 1,
            st.2.2.2.1, st.2.2.2.2)
      else (st.1 + 1, 0, 0, st.2.2.2.1, st.2.2.2.2))
    (0, 0, 0, 0, 0)

/-- The best (leftmost longest) zero-run of the scan: (start, length). -/
def bestRun (hextets : List (List Char)) : Nat × Nat :=
  ((compressScan hextets).2.2.2.1, (compressScan hextets).2.2.2.2)

/-- CPython appends an extra `''` when the compressed run reaches the end
of the hextet list (so the join produces a trailing `::`). -/
def compressPad (hextets : List (List Char)) (bestEnd : Nat) : List (List Char) :=
  if bestEnd = hextets.length then hextets ++ [[]] else hextets

/-- CPython `_compress_hextets`: the longest (leftmost on ties) run of
`"0"` hextets of length ≥ 2 is replaced by an empty marker, with an extra
empty marker appended/prepended when the run touches an end (written
`(if start = 0 then [''] else []) ++ …`, equivalent to CPython's
conditional `[''] +` prepend). -/
def compressHextets (hextets : List (List Char)) : List (List Char) :=
  if (bestRun hextets).2 > 1 then
    (if (bestRun hextets).1 = 0 then [[]] else []) ++
      (compressPad hextets ((bestRun hextets).1 + (bestRun hextets).2)).take
        (bestRun hextets).1 ++
      [[]] ++
      (compressPad hextets ((bestRun hextets).1 + (bestRun hextets).2)).drop
        ((bestRun hextets).1 + (bestRun hextets).2)
  else hextets

/-- `':'.join(...)`. -/
def joinChar (sep : Char) : List (List Char) → List Char
  | [] => []
  | p :: ps =>
    match ps with
    | [] => p
    | _ :: _ => p ++ sep :: joinChar sep ps

/-- `str(IPv6Address)` (`_string_from_ip_int`): eight lowercase hextets,
compressed, joined with `':'`. -/
def ipv6Render (v : Nat) : List Char :=
  let hextets := (List.range 8).map (fun i => hexRender (v / 65536 ^ (7 - i) % 65536))
  joinChar ':' (compressHextets hextets)

/-! ## CPython `ipaddress` — networks and `ip_address` -/

/-- CPython `_split_optional_netmask` modulo the `> 2`-pieces check: the
part before the first `'/'` and, when a `'/'` is present, everything
after it.  (On a string with two or more `'/'` CPython raises outright;
here the second `'/'` lands in the mask part, where every mask parse
fails on the non-digit `'/'` — the same `none`.) -/
def splitSlash (t : List Char) : List Char × Option (List Char) :=
  if '/' ∈ t then
    (t.takeWhile (· ≠ '/'), some ((t.dropWhile (· ≠ '/')).drop 1))
  else (t, none)

/-- CPython `_split_scope_id` (`addr.partition('%')`): the part before the
first `'%'` and, when one is present, everything after it as the zone id. -/
def pySplitScope (l : List Char) : List Char × Option (List Char) :=
  if '%' ∈ l then (l.takeWhile (· ≠ '%'), some ((l.dropWhile (· ≠ '%')).drop 1))
  else (l, none)

/-- CPython ≥ 3.9 zone-id rule: a scope id, when present, must be
non-empty and `'%'`-free (it is otherwise uninspected). -/
def scopeValid : Option (List Char) → Bool
  | none => true
  | some sc => sc ≠ [] && !(sc.any (· = '%'))

/-- `_prefix_from_prefix_string`: all ASCII digits, value within
`[0, maxPrefix]`. -/
def prefixFromDigits (maxPrefix : Nat) (m : List Char) : Option Nat :=
  if m ≠ [] && m.all Char.isDigit then
    let v := digitsVal m
    if v ≤ maxPrefix then some v else none
  else none

/-- Netmask value of a prefix length, as a `width`-bit integer. -/
def maskValue (width plen : Nat) : Nat :=
  (2 ^ width) - (2 ^ (width - plen))

/-- `IPv4Network._make_netmask` for string arguments: a decimal prefix
length, else a dotted-quad netmask (`1*0*` bit pattern) or hostmask
(`0*1*`).  The bit-pattern matching is expressed as equality with the
unique mask of some prefix length. -/
def ipv4MakeNetmask (m : List Char) : Option Nat :=
  match prefixFromDigits 32 m with
  | some p => some p
  | none =>
    match ipv4Parse m with
    | none => none
    | some v =>
      match (List.range 33).find? (fun p => v = maskValue 32 p) with
      | some p => some p
      | none => (List.range 33).find? (fun p => 4294967295 - v = maskValue 32 p)

/-- `IPv4Network.hosts()` (CPython: `/:32` yields the single address,
`/31` both addresses, otherwise everything strictly between network and
broadcast). -/
def ipv4Hosts (network plen : Nat) : List Nat :=
  if plen = 32 then [network]
  else if plen = 31 then [network, network + 1]
  else (List.range (2 ^ (32 - plen) - 2)).map (fun k => network + 1 + k)

/-- Prefix length of the optional mask part (`cls._max_prefixlen` when no
`/` was present). -/
def ipv4MaskLen : Option (List Char) → Option Nat
  | none => some 32
  | some m => ipv4MakeNetmask m

/-- `IPv4Network(t, strict=False)` followed by host expansion and
rendering; `none` where CPython raises.  `strict=False` masks the host
bits off instead of raising. -/
def ipv4NetworkParse (t : List Char) : Option (List (List Char)) :=
  match ipv4Parse (splitSlash t).1, ipv4MaskLen (splitSlash t).2 with
  | some addr, some plen =>
    some ((ipv4Hosts (addr / 2 ^ (32 - plen) * 2 ^ (32 - plen)) plen).map ipv4Render)
  | _, _ => none

/-- `IPv6Network.hosts()` (CPython: `/128` the single address, `/127`
both, otherwise everything after the subnet-router anycast address up to
and including the last address). -/
def ipv6Hosts (network plen : Nat) : List Nat :=
  if plen = 128 then [network]
  else if plen = 127 then [network, network + 1]
  else (List.range (2 ^ (128 - plen) - 1)).map (fun k => network + 1 + k)

/-- The network-address part of `IPv6Network` is built through
`IPv6Address(addr)`, which splits off an optional `%zone` (validated,
then ignored for the numeric value), so scoped network strings are
accepted. -/
def ipv6NetworkAddr (addrS : List Char) : Option Nat :=
  if scopeValid (pySplitScope addrS).2 then ipv6CoreParse (pySplitScope addrS).1
  else none

/-- Prefix length of the optional v6 mask part: CPython's
`IPv6Network._make_netmask` accepts only prefix strings (no v6
netmask-address form). -/
def ipv6MaskLen : Option (List Char) → Option Nat
  | none => some 128
  | some m => prefixFromDigits 128 m

/-- `IPv6Network(t, strict=False)` followed by host expansion and
rendering; the expanded host addresses are rendered unscoped. -/
def ipv6NetworkParse (t : List Char) : Option (List (List Char)) :=
  match ipv6NetworkAddr (splitSlash t).1, ipv6MaskLen (splitSlash t).2 with
  | some addr, some plen =>
    some ((ipv6Hosts (addr / 2 ^ (128 - plen) * 2 ^ (128 - plen)) plen).map ipv6Render)
  | _, _ => none

/-- `ipaddress.ip_network(t, strict=False)`: IPv4 first, then IPv6;
returned as the rendered usable-host strings the scanner appends. -/
def ipNetworkParse (t : List Char) : Option (List (List Char)) :=
  match ipv4NetworkParse t with
  | some hosts => some hosts
  | none => ipv6NetworkParse t

/-- `IPv4Address(l)` succeeds as a constructor call: CPython's
`IPv4Address.__init__` first raises `AddressValueError` on any `'/'` in
the string (`ipaddress.py`: "Unexpected '/' in …") and then parses the
dotted quad. -/
def pyIPv4AddressValid (l : List Char) : Bool :=
  !(l.any (· = '/')) && (ipv4Parse l).isSome

/-- `IPv6Address(l)` succeeds as a constructor call: CPython's
`IPv6Address.__init__` likewise first raises on any `'/'` in the string,
then splits off an optional scope id (CPython ≥ 3.9: non-empty and
`'%'`-free, otherwise uninspected) and parses the remainder. -/
def pyIPv6AddressValid (l : List Char) : Bool :=
  !(l.any (· = '/')) &&
    (let (addr, scope) := pySplitScope l
     scopeValid scope && (ipv6CoreParse addr).isSome)

/-- `ipaddress.ip_address(l)` succeeds (IPv4, then IPv6). -/
def pyIpAddressValid (l : List Char) : Bool :=
  pyIPv4AddressValid l || pyIPv6AddressValid l

/-! ## Target resolver (`parse_targets`, identical in both source files) -/

/-- Target strings appended for one (stripped) token: empty tokens are
skipped; a token containing `'/'` is tried as a CIDR network (expanding to
its rendered usable hosts), falling back to a literal append when it
validates as a plain IP address, else dropped; a `'/'`-free token passes
through verbatim. -/
def targetToken (t : List Char) : List (List Char) :=
  if t = [] then []
  else if '/' ∈ t then
    match ipNetworkParse t with
    | some hosts => hosts
    | none => if pyIpAddressValid t then [t] else []
  else [t]

/-- `parse_targets`: split the stripped input on runs of
newline/comma/semicolon, strip each token, process it. -/
def parse_targets (text : String) : List String :=
  ((splitGroups isTargetDelim (pyStrip text.toList)).flatMap
    (fun tok => targetToken (pyStrip tok))).map (fun cs => String.mk cs)

/-! ## Probe strategies

Each probe wraps one blocking library call whose outcome is decided by the
network/OS; the outcome is passed in as an explicit value.  The probes'
own code is transcribed verbatim from `tcp_connect_scan`, `tcp_syn_scan`
and `udp_scan` (identical in both source files). -/

/-- Outcome of `sock.connect_ex((target, port))` as CPython delivers it to
the caller: `connect_ex` returns the C-level error indicator instead of
raising — `0` on an established connection, and a nonzero errno for
refused (`ECONNREFUSED` = 111), unreachable (`EHOSTUNREACH` = 113) *and*
timed-out attempts (CPython's `internal_connect` converts a connect
timeout into the `EWOULDBLOCK` = 11 return value when called from
`connect_ex`).  Only failures outside the C-level connect — e.g.
`socket.gaierror` from name resolution — raise, and are caught by the
probe's `except` clause with text `msg`. -/
inductive ConnectAttempt where
  | completes (code : Nat)
  | raises (msg : String)

/-- The errno CPython's `connect_ex` returns for a timed-out connect
(`EWOULDBLOCK`; no `socket.timeout` is raised through `connect_ex`). -/
def timeoutErrno : Nat := 11

/-- `tcp_connect_scan`: `"open" if result == 0 else "closed"`, any caught
exception becomes `("unknown", str(e))`. -/
def tcp_connect_scan : ConnectAttempt → String × String
  | .completes code => (if code = 0 then "open" else "closed", "")
  | .raises msg => ("unknown", msg)

/-- `tcp_connect_scan` with its socket-resource effects made explicit:
besides the returned pair, records whether a socket object was created and
whether `sock.close()` was executed.  The source has no `try/finally` and
no `with`: `sock.close()` sits on the straight-line path only, so an
exception raised after `socket.socket(...)` (from `settimeout` or
`connect_ex`) jumps to the `except` clause without closing. -/
inductive ConnectEnv where
  /-- `socket.socket(...)` itself raises: no socket acquired. -/
  | createRaises (msg : String)
  /-- socket acquired; then the connect attempt completes or raises. -/
  | afterCreate (a : ConnectAttempt)

def tcp_connect_scanTrace : ConnectEnv → (String × String) × Bool × Bool
  | .createRaises msg => (("unknown", msg), false, false)
  | .afterCreate (.completes code) =>
    ((if code = 0 then "open" else "closed", ""), true, true)
  | .afterCreate (.raises msg) => (("unknown", msg), true, false)

/-- Outcome of the scapy `sr1(IP/TCP flags="S")` exchange in
`tcp_syn_scan`: no reply within the timeout, a reply (with or without a
TCP layer, carrying TCP `flags` when it has one), or an exception while
crafting/sending. -/
inductive SynOutcome where
  | noReply
  | reply (hasTCPLayer : Bool) (flags : Nat)
  | raises (msg : String)

/-- `tcp_syn_scan`.  `scapy` models the module-level `SCAPY_AVAILABLE`
flag; when it is `false` the function is a literal tail call to
`tcp_connect_scan`, so the connect-attempt outcome `c` decides the result.
When scapy is available: no reply → `("filtered", "Sem resposta")`;
a TCP reply with SYN+ACK (`flags & 0x12 == 0x12`) → open, else with
RST+ACK (`flags & 0x14 == 0x14`) → closed; any other reply falls through
to `("filtered", "Resposta inesperada")`; an exception →
`("unknown", str(e))`. -/
def tcp_syn_scan (scapy : Bool) (o : SynOutcome) (c : ConnectAttempt) : String × String :=
  if !scapy then tcp_connect_scan c
  else
    match o with
    | .noReply => ("filtered", "Sem resposta")
    | .reply hasTCPLayer flags =>
      if hasTCPLayer then
        if flags &&& 0x12 = 0x12 then ("open", "")
        else if flags &&& 0x14 = 0x14 then ("closed", "")
        else ("filtered", "Resposta inesperada")
      else ("filtered", "Resposta inesperada")
    | .raises msg => ("unknown", msg)

/-- Outcome of the scapy `sr1(IP/UDP)` exchange in `udp_scan`. -/
inductive UdpOutcome where
  | noReply
  | reply (hasUDPLayer : Bool)
  | raises (msg : String)

/-- `udp_scan`: without scapy, `("unknown", "Scapy não disponível")`;
no reply → `("open|filtered", "Sem resposta")`; a UDP-layer reply →
open; any other reply → `("filtered", "Provavelmente filtrada")`;
an exception → `("unknown", str(e))`. -/
def udp_scan (scapy : Bool) (o : UdpOutcome) : String × String :=
  if !scapy then ("unknown", "Scapy não disponível")
  else
    match o with
    | .noReply => ("open|filtered", "Sem resposta")
    | .reply hasUDPLayer =>
      if hasUDPLayer then ("open", "") else ("filtered", "Provavelmente filtrada")
    | .raises msg => ("unknown", msg)

/-- The closed state enumeration, as the internal state strings the
probes produce (the spec's `open_or_filtered` is the internal
`"open|filtered"`). -/
def stateEnum : List String := ["open", "closed", "filtered", "open|filtered", "unknown"]

/-! ## Scan engine (GUI `start_scan` enqueue loop + `worker`) -/

structure ScanJob where
  target : String
  proto : String
  port : Int
deriving DecidableEq, Repr

structure ScanResult where
  target : String
  proto : String
  port : Int
  state : String
  info : String
deriving DecidableEq, Repr

/-- The enqueue loop of `MeltScanApp.start_scan`: for each target, for
each port, a TCP job when TCP is enabled followed by a UDP job when UDP is
enabled. -/
def buildJobs (targets : List String) (ports : List Int) (tcp udp : Bool) : List ScanJob :=
  targets.flatMap fun t =>
    ports.flatMap fun p =>
      (if tcp then [ScanJob.mk t "tcp" p] else []) ++
        (if udp then [ScanJob.mk t "udp" p] else [])

/-- One `worker` step on a dequeued job: run the protocol-appropriate
probe and append `ScanResult(target, proto, port, state, info)`.  `probe`
abstracts the dispatch on `settings["tcp_mode"]` together with the network
outcome of the chosen probe call. -/
def execJob (probe : ScanJob → String × String) (j : ScanJob) : ScanResult :=
  ScanResult.mk j.target j.proto j.port (probe j).1 (probe j).2

/-- A completed, non-cancelled run: `queue.Queue` hands every enqueued job
to exactly one worker (`get_nowait` single-consumer semantics), each
worker executes its job once and appends the result; `order` is the
interleaved dequeue/append order, an arbitrary permutation of the enqueue
order. -/
def runResults (probe : ScanJob → String × String) (order : List ScanJob) : List ScanResult :=
  order.map (execJob probe)

def resultTriple (r : ScanResult) : String × String × Int := (r.target, r.proto, r.port)

def jobTriple (j : ScanJob) : String × String × Int := (j.target, j.proto, j.port)

/-- Number of enabled protocols. -/
def protocolCount (tcp udp : Bool) : Nat :=
  (if tcp then 1 else 0) + (if udp then 1 else 0)

/-! ## Localization and export -/

/-- `traduz_estado` (`mapping.get(state, state)`). -/
def traduz_estado (state : String) : String :=
  if state = "open" then "Aberta"
  else if state = "closed" then "Fechada"
  else if state = "filtered" then "Filtrada"
  else if state = "open|filtered" then "Aberta/Filtrada"
  else if state = "timeout" then "Tempo esgotado"
  else if state = "unknown" then "Desconhecida"
  else state

/-- File content written by `MeltScanApp.export_txt`: one tab-delimited
line per result, state localized — and nothing else (no header line). -/
def export_txt (results : List ScanResult) : String :=
  String.join (results.map fun r =>
    r.target ++ "\t" ++ r.proto ++ "\t" ++ toString r.port ++ "\t" ++
      traduz_estado r.state ++ "\t" ++ r.info ++ "\n")

/-- Rows handed to `csv.writer` by `MeltScanApp.export_csv`: a header row,
then one row per result with the state localized. -/
def export_csv (results : List ScanResult) : List (List String) :=
  ["Alvo", "Protocolo", "Porta", "Estado", "Info"] ::
    results.map (fun r =>
      [r.target, r.proto, toString r.port, traduz_estado r.state, r.info])

/-- One line of the CLI `results` list
(`f"{target}\tTCP\t{port}\t{state}\t{info}"`): the state string is
written as-is, untranslated. -/
def cli_result_line (target : String) (protoLabel : String) (port : Int)
    (state info : String) : String :=
  target ++ "\t" ++ protoLabel ++ "\t" ++ toString port ++ "\t" ++ state ++ "\t" ++ info

/-- File content written by the CLI `main` for `--output`: a tab-delimited
header line, then every accumulated result line. -/
def cli_output (resultLines : List String) : String :=
  "Alvo\tProtocolo\tPorta\tEstado\tInfo\n" ++
    String.join (resultLines.map (· ++ "\n"))

/-! ## Helper lemmas -/

/-- The protocol labels a single (target, port) pair is enqueued with. -/
def protoList (tcp udp : Bool) : List String :=
  (if tcp then ["tcp"] else []) ++ (if udp then ["udp"] else [])

theorem buildJobs_eq_flatMap (targets : List String) (ports : List Int) (tcp udp : Bool) :
    buildJobs targets ports tcp udp =
      targets.flatMap fun t => ports.flatMap fun p =>
        (protoList tcp udp).map fun pr => ScanJob.mk t pr p := by
  unfold buildJobs protoList
  cases tcp <;> cases udp <;> simp

theorem protoList_length (tcp udp : Bool) :
    (protoList tcp udp).length = protocolCount tcp udp := by
  cases tcp <;> cases udp <;> rfl

theorem protoList_nodup (tcp udp : Bool) : (protoList tcp udp).Nodup := by
  cases tcp <;> cases udp <;> decide

theorem perTarget_length (t : String) (ports : List Int) (tcp udp : Bool) :
    (ports.flatMap fun p => (protoList tcp udp).map fun pr => ScanJob.mk t pr p).length =
      ports.length * protocolCount tcp udp := by
  induction ports with
  | nil => simp
  | cons p ps ihp =>
    simp only [List.flatMap_cons, List.length_append, List.length_map, protoList_length,
      ihp, List.length_cons]
    ring

theorem buildJobs_length (targets : List String) (ports : List Int) (tcp udp : Bool) :
    (buildJobs targets ports tcp udp).length =
      targets.length * ports.length * protocolCount tcp udp := by
  rw [buildJobs_eq_flatMap]
  induction targets with
  | nil => simp
  | cons t ts ih =>
    simp only [List.flatMap_cons, List.length_append, ih, List.length_cons,
      perTarget_length]
    ring

theorem jobTriple_injective : Function.Injective jobTriple := by
  intro j1 j2 h
  cases j1; cases j2
  simpa [jobTriple, ScanJob.mk.injEq, Prod.ext_iff] using h

theorem buildJobs_nodup (targets : List String) (ports : List Int) (tcp udp : Bool)
    (ht : targets.Nodup) (hp : ports.Nodup) :
    (buildJobs targets ports tcp udp).Nodup := by
  rw [buildJobs_eq_flatMap]
  refine List.nodup_flatMap.2 ⟨fun t _ => ?_, ?_⟩
  · refine List.nodup_flatMap.2 ⟨fun p _ => ?_, ?_⟩
    · refine List.Nodup.map ?_ (protoList_nodup tcp udp)
      intro pr1 pr2 h
      simpa [ScanJob.mk.injEq] using h
    · refine hp.imp ?_
      intro p1 p2 hne
      simp only [Function.onFun, List.disjoint_left]
      intro j hj1 hj2
      obtain ⟨pr1, -, rfl⟩ := List.mem_map.1 hj1
      obtain ⟨pr2, -, hj⟩ := List.mem_map.1 hj2
      have hpp : p2 = p1 := by
        simp only [ScanJob.mk.injEq] at hj
        exact hj.2.2
      exact hne hpp.symm
  · refine ht.imp ?_
    intro t1 t2 hne
    simp only [Function.onFun, List.disjoint_left]
    intro j hj1 hj2
    obtain ⟨p1, -, hj1'⟩ := List.mem_flatMap.1 hj1
    obtain ⟨p2, -, hj2'⟩ := List.mem_flatMap.1 hj2
    obtain ⟨pr1, -, rfl⟩ := List.mem_map.1 hj1'
    obtain ⟨pr2, -, hj⟩ := List.mem_map.1 hj2'
    have htt : t2 = t1 := by
      simp only [ScanJob.mk.injEq] at hj
      exact hj.1
    exact hne htt.symm

theorem insertSorted_perm (x : Int) (l : List Int) :
    (insertSorted x l).Perm (x :: l) := by
  induction l with
  | nil => simp [insertSorted]
  | cons y ys ih =>
    unfold insertSorted
    split
    · exact List.Perm.refl _
    · exact (ih.cons y).trans (List.Perm.swap x y ys)

theorem sortInts_perm (l : List Int) : (sortInts l).Perm l := by
  induction l with
  | nil => simp [sortInts]
  | cons x xs ih =>
    exact (insertSorted_perm x (sortInts xs)).trans (ih.cons x)

theorem parse_ports_nodup (text : String) : (parse_ports text).Nodup := by
  unfold parse_ports
  split
  · exact List.nodup_nil
  · exact ((sortInts_perm _).nodup_iff).2 (List.nodup_dedup _)

theorem splitChar_ne_nil (sep : Char) (l : List Char) : splitChar sep l ≠ [] := by
  cases l with
  | nil => simp [splitChar]
  | cons c rest =>
    simp only [splitChar]
    cases h : splitChar sep rest with
    | nil => simp
    | cons t ts => by_cases hc : c = sep <;> simp [hc]

theorem mem_of_splitChar_pair {sep : Char} {p sa sb : List Char}
    (h : splitChar sep p = [sa, sb]) : sep ∈ p := by
  induction p generalizing sa with
  | nil => simp [splitChar] at h
  | cons c rest ih =>
    simp only [splitChar] at h
    cases hr : splitChar sep rest with
    | nil => exact absurd hr (splitChar_ne_nil sep rest)
    | cons t ts =>
      rw [hr] at h
      by_cases hc : c = sep
      · simp [hc]
      · simp only [hc, if_false] at h
        injection h with h1 h2
        exact List.mem_cons_of_mem c (ih (show splitChar sep rest = [t, sb] by rw [hr, h2]))

/-! ## Claims -/

/-- C1 (counterexample): the TCP-connect probe does **not** report a
connect timeout as `unknown`.  CPython's `connect_ex` returns the errno
`EWOULDBLOCK` (11) for a timed-out connect instead of raising, so the
probe's `"open" if result == 0 else "closed"` maps a timeout to
`closed` — not to `unknown` with an exception text as claimed. -/
theorem C1_counterexample :
    tcp_connect_scan (.completes timeoutErrno) = ("closed", "") ∧
      ("closed" : String) ≠ "unknown" := by decide

/-- C1 (amended): the TCP-connect probe returns `open` when `connect_ex`
returns 0 (connection established) and `closed` for every nonzero return
code — which covers active refusal but also timeout and unreachability,
since `connect_ex` reports those as error codes; `unknown` with the
exception text arises only when an exception is raised (e.g. name
resolution failure). -/
theorem C1_connect_states :
    (∀ code, tcp_connect_scan (.completes code) =
      ((if code = 0 then "open" else "closed"), "")) ∧
    tcp_connect_scan (.completes 0) = ("open", "") ∧
    tcp_connect_scan (.completes 111) = ("closed", "") ∧
    tcp_connect_scan (.completes timeoutErrno) = ("closed", "") ∧
    tcp_connect_scan (.completes 113) = ("closed", "") ∧
    (∀ msg, tcp_connect_scan (.raises msg) = ("unknown", msg)) :=
  ⟨fun _ => rfl, by decide, by decide, by decide, by decide, fun _ => rfl⟩

/-- C2 (code bug): `parse_ports` can emit ports outside [1, 65535].  The
range branch clamps only the left endpoint from below and the right
endpoint from above, so the ranges that invert after clamping let
out-of-range values through: `"0-0"` (a = 0 → clamped to 1, b = 0 kept)
spans `range(min(1,0), max(1,0)+1)` and emits port 0, and `"65536-70000"`
(a = 65536 kept, b = 70000 → clamped to 65535) emits port 65536 —
contradicting the claimed PortSet invariant (and the function's own
contract of ignoring invalid values, which the single-value branch
enforces).  The sorted/deduplicated part of the claim does hold, as the
outputs below show. -/
theorem C2_port_range_violation :
    parse_ports "0-0" = [0, 1] ∧
    parse_ports "65536-70000" = [65535, 65536] ∧
      ¬ (∀ p ∈ parse_ports "0-0", 1 ≤ p ∧ p ≤ 65535) ∧
      ¬ (∀ p ∈ parse_ports "65536-70000", 1 ≤ p ∧ p ≤ 65535) := by decide

/-- C4: no probe strategy can deliver anything but a (state, diagnostic)
pair whose state lies in the closed enumeration
`{open, closed, filtered, open|filtered, unknown}` (first conjunct, over
every environment outcome and capability setting); and every
raised-exception outcome is converted by the probes' catch-all `except`
clauses into exactly `("unknown", str(e))` — stated for the connect
probe, for the SYN probe both with the raw-packet capability (its own
`except` clause) and without it (where the delegated connect probe's
`except` clause catches), and for the UDP probe (remaining conjuncts). -/
theorem C4_probe_totality :
    (∀ (c : ConnectAttempt) (scapyS scapyU : Bool) (so : SynOutcome) (uo : UdpOutcome),
      (tcp_connect_scan c).1 ∈ stateEnum ∧
      (tcp_syn_scan scapyS so c).1 ∈ stateEnum ∧
      (udp_scan scapyU uo).1 ∈ stateEnum) ∧
    (∀ msg, tcp_connect_scan (.raises msg) = ("unknown", msg)) ∧
    (∀ msg (c : ConnectAttempt), tcp_syn_scan true (.raises msg) c = ("unknown", msg)) ∧
    (∀ msg (so : SynOutcome), tcp_syn_scan false so (.raises msg) = ("unknown", msg)) ∧
    (∀ msg, udp_scan true (.raises msg) = ("unknown", msg)) := by
  refine ⟨?_, fun msg => rfl, fun msg c => rfl, fun msg so => rfl, fun msg => rfl⟩
  intro c scapyS scapyU so uo
  refine ⟨?_, ?_, ?_⟩
  · cases c with
    | completes code =>
      by_cases h : code = 0 <;> simp [tcp_connect_scan, h, stateEnum]
    | raises msg => simp [tcp_connect_scan, stateEnum]
  · cases scapyS with
    | false =>
      cases c with
      | completes code =>
        by_cases h : code = 0 <;> simp [tcp_syn_scan, tcp_connect_scan, h, stateEnum]
      | raises msg => simp [tcp_syn_scan, tcp_connect_scan, stateEnum]
    | true =>
      cases so with
      | noReply => simp [tcp_syn_scan, stateEnum]
      | reply hasTCPLayer flags =>
        cases hasTCPLayer with
        | false => simp [tcp_syn_scan, stateEnum]
        | true =>
          by_cases h1 : flags &&& 0x12 = 0x12 <;>
            by_cases h2 : flags &&& 0x14 = 0x14 <;>
            simp [tcp_syn_scan, h1, h2, stateEnum]
      | raises msg => simp [tcp_syn_scan, stateEnum]
  · cases scapyU with
    | false => simp [udp_scan, stateEnum]
    | true =>
      cases uo with
      | noReply => simp [udp_scan, stateEnum]
      | reply hasUDPLayer => cases hasUDPLayer <;> simp [udp_scan, stateEnum]
      | raises msg => simp [udp_scan, stateEnum]

/-- C5 (counterexample): when scapy is available and no reply arrives, the
SYN probe's diagnostic is the Portuguese string `"Sem resposta"`, not the
claimed `"no response"` (likewise `"Resposta inesperada"`, not
`"unexpected response"`). -/
theorem C5_counterexample :
    tcp_syn_scan true .noReply (.completes 0) = ("filtered", "Sem resposta") ∧
      ("Sem resposta" : String) ≠ "no response" := by decide

/-- C5 (amended): with the raw-packet capability available, the SYN probe
returns `filtered` with diagnostic `"Sem resposta"` on no reply, `open`
when the TCP reply has SYN+ACK set (`flags & 0x12 == 0x12`), `closed`
when it has RST+ACK set, and `filtered` with diagnostic
`"Resposta inesperada"` for any other reply shape (other flag pattern,
or no TCP layer). -/
theorem C5_syn_states :
    (∀ c, tcp_syn_scan true .noReply c = ("filtered", "Sem resposta")) ∧
    (∀ flags c, tcp_syn_scan true (.reply true flags) c =
      if flags &&& 0x12 = 0x12 then ("open", "")
      else if flags &&& 0x14 = 0x14 then ("closed", "")
      else ("filtered", "Resposta inesperada")) ∧
    (∀ flags c, tcp_syn_scan true (.reply false flags) c =
      ("filtered", "Resposta inesperada")) := by
  refine ⟨fun c => rfl, fun flags c => ?_, fun flags c => rfl⟩
  by_cases h1 : flags &&& 0x12 = 0x12 <;> by_cases h2 : flags &&& 0x14 = 0x14 <;>
    simp [tcp_syn_scan, h1, h2]

/-- C7 (code bug): the TCP-connect probe does not release its socket on
the exception path.  The source closes the socket only on the
straight-line path (`sock.close()` before the `return`); there is no
`try/finally` or `with`, so when `connect_ex` (or `settimeout`) raises —
e.g. `socket.gaierror` for an unresolvable hostname — the probe returns
`("unknown", str(e))` with the acquired socket left unclosed. -/
theorem C7_socket_leak :
    tcp_connect_scanTrace
        (.afterCreate (.raises "gaierror: Name or service not known")) =
      (("unknown", "gaierror: Name or service not known"), true, false) ∧
    (∀ code, tcp_connect_scanTrace (.afterCreate (.completes code)) =
      (tcp_connect_scan (.completes code), true, true)) :=
  ⟨rfl, fun _ => rfl⟩

/-- C9: when the raw-packet capability is unavailable
(`SCAPY_AVAILABLE == False`), the SYN probe is a literal delegation to the
TCP-connect probe: for every connect-attempt outcome the two return the
same pair. -/
theorem C9_syn_fallback :
    ∀ (o : SynOutcome) (c : ConnectAttempt),
      tcp_syn_scan false o c = tcp_connect_scan c :=
  fun _ _ => rfl

/-- C3 (counterexample): a completed, non-cancelled run *can* contain
duplicate (target, protocol, port) triples, because the target resolver
does not deduplicate and `start_scan` enqueues the full cartesian
product: with the (resolvable) target list `["10.0.0.1", "10.0.0.1"]`,
one port and TCP only, the completed run executes two jobs with the same
triple.  (The job-*count* part of the claim does hold — the run below has
exactly 2 = 2·1·1 results.) -/
theorem C3_counterexample :
    (runResults (fun _ => ("closed", ""))
        (buildJobs ["10.0.0.1", "10.0.0.1"] [80] true false)).length = 2 ∧
    ¬ ((runResults (fun _ => ("closed", ""))
        (buildJobs ["10.0.0.1", "10.0.0.1"] [80] true false)).map resultTriple).Nodup := by
  decide

/-- C3 (amended): for every completed, non-cancelled run (every enqueued
job dequeued exactly once, in an arbitrary completion order `order`), the
number of results equals `targets × ports × enabled protocols`; and
provided the resolved target list has no duplicate entries (the port list
from `parse_ports` never does — third conjunct — but targets are not
deduplicated), the multiset of (target, protocol, port) triples in the
results has no duplicates — every enqueued job is executed exactly
once. -/
theorem C3_run_invariant (targets : List String) (ports : List Int) (tcp udp : Bool)
    (probe : ScanJob → String × String) (order : List ScanJob)
    (hperm : order.Perm (buildJobs targets ports tcp udp)) :
    (runResults probe order).length =
      targets.length * ports.length * protocolCount tcp udp ∧
    (targets.Nodup → ports.Nodup →
      ((runResults probe order).map resultTriple).Nodup) ∧
    (∀ text, (parse_ports text).Nodup) := by
  refine ⟨?_, ?_, fun text => parse_ports_nodup text⟩
  · calc (runResults probe order).length = order.length := List.length_map ..
      _ = (buildJobs targets ports tcp udp).length := hperm.length_eq
      _ = _ := buildJobs_length ..
  · intro ht hp
    have hcomp : resultTriple ∘ execJob probe = jobTriple := funext fun j => rfl
    have hmap : (runResults probe order).map resultTriple = order.map jobTriple := by
      rw [runResults, List.map_map, hcomp]
    rw [hmap, (hperm.map jobTriple).nodup_iff]
    exact (buildJobs_nodup targets ports tcp udp ht hp).map jobTriple_injective

theorem C3_run_invariant_witness :
    (runResults (fun _ => ("closed", ""))
        (buildJobs ["10.0.0.1", "10.0.0.2"] [22, 80] true true)).length = 8 ∧
    ((runResults (fun _ => ("closed", ""))
        (buildJobs ["10.0.0.1", "10.0.0.2"] [22, 80] true true)).map resultTriple).Nodup := by
  have h := C3_run_invariant ["10.0.0.1", "10.0.0.2"] [22, 80] true true
    (fun _ => ("closed", "")) (buildJobs ["10.0.0.1", "10.0.0.2"] [22, 80] true true)
    (List.Perm.refl _)
  exact ⟨by simpa [protocolCount] using h.1, h.2.1 (by decide) (by decide)⟩

/-- C6: a range token `a-b` whose two sides both parse as integers has `a`
clamped below at 1 and `b` clamped above at 65535, and contributes exactly
the inclusive integer range `[min(a,b), max(a,b)]` of the clamped values;
a side that fails to parse skips the whole token; and the two concrete
examples from the spec: `parse_ports "10-5" = {5,…,10}` (direction
agnostic) and `parse_ports "70000" = {}` (single out-of-range value
dropped). -/
theorem C6_range_tokens :
    (∀ (p sa sb : List Char) (a b : Int),
        splitChar '-' p = [sa, sb] → pyIntParse sa = some a → pyIntParse sb = some b →
        tokenPorts p =
          intRange (min (if a < 1 then 1 else a) (if b > 65535 then 65535 else b))
            (max (if a < 1 then 1 else a) (if b > 65535 then 65535 else b))) ∧
    (∀ (p sa sb : List Char), splitChar '-' p = [sa, sb] →
        pyIntParse sa = none ∨ pyIntParse sb = none → tokenPorts p = []) ∧
    parse_ports "10-5" = [5, 6, 7, 8, 9, 10] ∧
    parse_ports "70000" = [] := by
  refine ⟨?_, ?_, by decide, by decide⟩
  · intro p sa sb a b hsplit ha hb
    have hmem : '-' ∈ p := mem_of_splitChar_pair hsplit
    have hne : p ≠ [] := by intro h; subst h; simp at hmem
    simp [tokenPorts, hne, hmem, hsplit, ha, hb]
  · intro p sa sb hsplit hfail
    have hmem : '-' ∈ p := mem_of_splitChar_pair hsplit
    have hne : p ≠ [] := by intro h; subst h; simp at hmem
    rcases hfail with h | h
    · simp [tokenPorts, hne, hmem, hsplit, h]
    · cases hsa : pyIntParse sa <;> simp [tokenPorts, hne, hmem, hsplit, hsa, h]

theorem C6_range_tokens_witness :
    tokenPorts "10-5".toList = intRange 5 10 ∧ tokenPorts "x-5".toList = [] := by
  constructor
  · have h := C6_range_tokens.1 "10-5".toList "10".toList "5".toList 10 5
      (by decide) (by decide) (by decide)
    norm_num at h
    exact h
  · exact C6_range_tokens.2.1 "x-5".toList "x".toList "5".toList (by decide)
      (Or.inl (by decide))

/-- Sample result list covering all five internal states. -/
def sampleResults : List ScanResult :=
  [ScanResult.mk "10.0.0.5" "tcp" 22 "open" "",
   ScanResult.mk "10.0.0.5" "tcp" 23 "closed" "",
   ScanResult.mk "10.0.0.5" "tcp" 24 "filtered" "Sem resposta",
   ScanResult.mk "10.0.0.5" "udp" 53 "open|filtered" "Sem resposta",
   ScanResult.mk "10.0.0.5" "tcp" 25 "unknown" "timed out"]

/-- C8 (counterexample): the GUI plain-text export does **not** begin with
a header row — it writes only the records (the CSV export and the CLI
output file do write headers; the CLI additionally writes the internal
state strings untranslated, e.g. `closed` rather than `Fechada`). -/
theorem C8_counterexample :
    (export_txt [ScanResult.mk "10.0.0.5" "tcp" 22 "open" ""]).startsWith
        "Alvo\tProtocolo\tPorta\tEstado\tInfo" = false ∧
    export_txt [ScanResult.mk "10.0.0.5" "tcp" 22 "open" ""] =
      "10.0.0.5\ttcp\t22\tAberta\t\n" ∧
    cli_result_line "10.0.0.5" "TCP" 9999 "closed" "" =
      "10.0.0.5\tTCP\t9999\tclosed\t" := by decide

/-- C8 (amended): the GUI CSV export begins with the header row
`Alvo,Protocolo,Porta,Estado,Info` and renders states through the 1:1
localized mapping `open→"Aberta"`, `closed→"Fechada"`,
`filtered→"Filtrada"`, `open|filtered→"Aberta/Filtrada"`,
`unknown→"Desconhecida"`; the GUI plain-text export writes one
tab-delimited localized record per result with **no** header row; and the
CLI output file begins with the tab-delimited header
`Alvo\tProtocolo\tPorta\tEstado\tInfo` but records the internal
(untranslated) state strings. -/
theorem C8_export_format :
    (∀ results, (export_csv results).head? =
      some ["Alvo", "Protocolo", "Porta", "Estado", "Info"]) ∧
    traduz_estado "open" = "Aberta" ∧
    traduz_estado "closed" = "Fechada" ∧
    traduz_estado "filtered" = "Filtrada" ∧
    traduz_estado "open|filtered" = "Aberta/Filtrada" ∧
    traduz_estado "unknown" = "Desconhecida" ∧
    export_csv sampleResults =
      [["Alvo", "Protocolo", "Porta", "Estado", "Info"],
       ["10.0.0.5", "tcp", "22", "Aberta", ""],
       ["10.0.0.5", "tcp", "23", "Fechada", ""],
       ["10.0.0.5", "tcp", "24", "Filtrada", "Sem resposta"],
       ["10.0.0.5", "udp", "53", "Aberta/Filtrada", "Sem resposta"],
       ["10.0.0.5", "tcp", "25", "Desconhecida", "timed out"]] ∧
    export_txt sampleResults =
      "10.0.0.5\ttcp\t22\tAberta\t\n10.0.0.5\ttcp\t23\tFechada\t\n10.0.0.5\ttcp\t24\tFiltrada\tSem resposta\n10.0.0.5\tudp\t53\tAberta/Filtrada\tSem resposta\n10.0.0.5\ttcp\t25\tDesconhecida\ttimed out\n" ∧
    cli_output [cli_result_line "10.0.0.5" "TCP" 9999 "closed" ""] =
      "Alvo\tProtocolo\tPorta\tEstado\tInfo\n10.0.0.5\tTCP\t9999\tclosed\t\n" :=
  ⟨fun _ => rfl, by decide, by decide, by decide, by decide, by decide,
    by decide, by decide, by decide⟩

/-! Auxiliary facts for C10: no rendered host string and no validated
address string contains a `'/'`. -/

theorem digitCharOf_ne_slash (k : Nat) : digitCharOf k ≠ '/' := by
  unfold digitCharOf
  split <;> decide

theorem natToBaseAux_no_slash (base : Nat) :
    ∀ (fuel n : Nat) (acc : List Char), '/' ∉ acc → '/' ∉ natToBaseAux base fuel n acc := by
  intro fuel
  induction fuel with
  | zero =>
    intro n acc hacc
    simp only [natToBaseAux, List.mem_cons]
    rintro (h | h)
    · exact digitCharOf_ne_slash _ h.symm
    · exact hacc h
  | succ f ih =>
    intro n acc hacc
    simp only [natToBaseAux]
    split
    · simp only [List.mem_cons]
      rintro (h | h)
      · exact digitCharOf_ne_slash _ h.symm
      · exact hacc h
    · refine ih _ _ ?_
      simp only [List.mem_cons]
      rintro (h | h)
      · exact digitCharOf_ne_slash _ h.symm
      · exact hacc h

theorem natToBase_no_slash (base n : Nat) : '/' ∉ natToBase base n :=
  natToBaseAux_no_slash base n n [] (by simp)

theorem ipv4Render_no_slash (v : Nat) : '/' ∉ ipv4Render v := by
  have h1 := natToBase_no_slash 10 (v / 16777216 % 256)
  have h2 := natToBase_no_slash 10 (v / 65536 % 256)
  have h3 := natToBase_no_slash 10 (v / 256 % 256)
  have h4 := natToBase_no_slash 10 (v % 256)
  unfold ipv4Render
  simp +decide [List.mem_append, List.mem_cons, h1, h2, h3, h4]

theorem joinChar_no_slash {sep : Char} (hsep : sep ≠ '/') :
    ∀ (l : List (List Char)), (∀ p ∈ l, '/' ∉ p) → '/' ∉ joinChar sep l := by
  intro l
  induction l with
  | nil => simp [joinChar]
  | cons p ps ih =>
    intro hall
    cases ps with
    | nil => simpa [joinChar] using hall p (by simp)
    | cons q qs =>
      simp only [joinChar, List.mem_append, List.mem_cons]
      rintro (h | h | h)
      · exact hall p (by simp) h
      · exact hsep h.symm
      · exact ih (fun r hr => hall r (List.mem_cons_of_mem p hr)) h

theorem mem_compressPad {hs : List (List Char)} {x : List Char} {e : Nat}
    (hx : x ∈ compressPad hs e) : x ∈ hs ∨ x = [] := by
  unfold compressPad at hx
  split at hx
  · rcases List.mem_append.1 hx with h | h
    · exact Or.inl h
    · simp only [List.mem_singleton] at h
      exact Or.inr h
  · exact Or.inl hx

theorem mem_compressHextets (hs : List (List Char)) (x : List Char)
    (hx : x ∈ compressHextets hs) : x ∈ hs ∨ x = [] := by
  unfold compressHextets at hx
  split at hx
  · simp only [List.append_assoc, List.mem_append] at hx
    rcases hx with hx | hx | hx | hx
    · split at hx <;> simp only [List.mem_singleton, List.not_mem_nil] at hx
      · exact Or.inr hx
    · exact mem_compressPad (List.mem_of_mem_take hx)
    · simp only [List.mem_singleton] at hx
      exact Or.inr hx
    · exact mem_compressPad (List.mem_of_mem_drop hx)
  · exact Or.inl hx

theorem ipv6Render_no_slash (v : Nat) : '/' ∉ ipv6Render v := by
  unfold ipv6Render
  refine joinChar_no_slash (by decide) _ ?_
  intro p hp
  rcases mem_compressHextets _ p hp with h | rfl
  · obtain ⟨i, -, rfl⟩ := List.mem_map.1 h
    exact natToBase_no_slash 16 _
  · simp

theorem ipv4NetworkParse_no_slash {t : List Char} {hosts : List (List Char)}
    (h : ipv4NetworkParse t = some hosts) : ∀ cs ∈ hosts, '/' ∉ cs := by
  unfold ipv4NetworkParse at h
  cases ha : ipv4Parse (splitSlash t).1 with
  | none =>
    rw [ha] at h
    exact Option.noConfusion h
  | some addr =>
    cases hm : ipv4MaskLen (splitSlash t).2 with
    | none =>
      rw [ha, hm] at h
      exact Option.noConfusion h
    | some plen =>
      rw [ha, hm] at h
      obtain rfl : (ipv4Hosts _ _).map ipv4Render = hosts := by injection h
      intro cs hcs
      obtain ⟨w, -, rfl⟩ := List.mem_map.1 hcs
      exact ipv4Render_no_slash w

theorem ipv6NetworkParse_no_slash {t : List Char} {hosts : List (List Char)}
    (h : ipv6NetworkParse t = some hosts) : ∀ cs ∈ hosts, '/' ∉ cs := by
  unfold ipv6NetworkParse at h
  cases ha : ipv6NetworkAddr (splitSlash t).1 with
  | none =>
    rw [ha] at h
    exact Option.noConfusion h
  | some addr =>
    cases hm : ipv6MaskLen (splitSlash t).2 with
    | none =>
      rw [ha, hm] at h
      exact Option.noConfusion h
    | some plen =>
      rw [ha, hm] at h
      obtain rfl : (ipv6Hosts _ _).map ipv6Render = hosts := by injection h
      intro cs hcs
      obtain ⟨w, -, rfl⟩ := List.mem_map.1 hcs
      exact ipv6Render_no_slash w

theorem ipNetworkParse_no_slash {t : List Char} {hosts : List (List Char)}
    (h : ipNetworkParse t = some hosts) : ∀ cs ∈ hosts, '/' ∉ cs := by
  unfold ipNetworkParse at h
  cases h4 : ipv4NetworkParse t with
  | some hs4 =>
    rw [h4] at h
    obtain rfl : hs4 = hosts := by injection h
    exact ipv4NetworkParse_no_slash h4
  | none =>
    rw [h4] at h
    exact ipv6NetworkParse_no_slash h

theorem slash_not_valid (t : List Char) (h : '/' ∈ t) :
    pyIpAddressValid t = false := by
  have hany : t.any (· = '/') = true := List.any_eq_true.2 ⟨'/', h, by simp⟩
  simp [pyIpAddressValid, pyIPv4AddressValid, pyIPv6AddressValid, hany]

theorem targetToken_no_slash (t cs : List Char) (hcs : cs ∈ targetToken t) :
    '/' ∉ cs := by
  unfold targetToken at hcs
  by_cases ht0 : t = []
  · simp [ht0] at hcs
  · simp only [ht0, if_false] at hcs
    by_cases hslash : '/' ∈ t
    · simp only [hslash, if_pos] at hcs
      cases hnet : ipNetworkParse t with
      | some hosts =>
        rw [hnet] at hcs
        exact ipNetworkParse_no_slash hnet cs hcs
      | none =>
        rw [hnet] at hcs
        rw [slash_not_valid t hslash] at hcs
        simp at hcs
    · simp only [hslash, if_neg, not_false_iff] at hcs
      simp only [List.mem_singleton] at hcs
      subst hcs
      exact hslash

/-- C10: for every input token containing `/` that does not parse as a
CIDR network, the target resolver drops the token — the literal-address
fallback never fires, because CPython's `IPv4Address`/`IPv6Address`
constructors reject any string containing `/` ("Unexpected '/' in …"), so
no string containing `/` validates as an IP address — and consequently
the resolver output never contains a `/` in any entry (CIDR-expanded host
strings are rendered without `/`, and pass-through tokens lack `/` by the
branch condition). -/
theorem C10_slash_dropped :
    (∀ t : List Char, '/' ∈ t → pyIpAddressValid t = false) ∧
    (∀ t : List Char, '/' ∈ t → ipNetworkParse t = none → targetToken t = []) ∧
    (∀ (text s : String), s ∈ parse_targets text → '/' ∉ s.toList) := by
  refine ⟨slash_not_valid, ?_, ?_⟩
  · intro t h1 h2
    have hne : t ≠ [] := by intro h; subst h; simp at h1
    simp [targetToken, hne, h1, h2, slash_not_valid t h1]
  · intro text s hs
    obtain ⟨cs, hcs, rfl⟩ := List.mem_map.1 hs
    obtain ⟨tok, -, hcs'⟩ := List.mem_flatMap.1 hcs
    simpa using targetToken_no_slash _ _ hcs'

theorem C10_slash_dropped_witness :
    pyIpAddressValid "1.2.3.4/99".toList = false ∧
    targetToken "1.2.3.4/99".toList = [] ∧
    '/' ∉ "1.2.3.4".toList := by
  refine ⟨C10_slash_dropped.1 _ ?_, C10_slash_dropped.2.1 _ ?_ ?_, ?_⟩
  · decide
  · decide
  · decide
  · exact C10_slash_dropped.2.2 "1.2.3.4/31;10.0.0.5" "1.2.3.4" (by decide)

end MeltScan
